import Mathlib

/-!
# Verification of the rays.earth presence/ping lifecycle core

Shallow embedding of the code in `src/lib/geo.ts`, `src/components/PingEngine.tsx`
and `src/components/PresenceLayer.tsx`, together with proofs settling the spec
claims about it.

Modelling conventions:
* JavaScript numbers appearing in the geodesic pipeline are modelled by
  `JSNum := Option ℝ`: `some x` is a finite IEEE value read at infinite
  precision, `none` is a non-finite value (NaN or ±Infinity collapsed into one
  point; every consumer in this code — the `isFinite`/`isNaN` filter in
  `PingEngine` — treats all non-finite values alike, and the only non-finite
  values actually produced on the paths exercised here arise from `0/0`, which
  is NaN in JavaScript).  Division by zero and the square root of a negative
  number produce `none`, as `0/0` and `Math.sqrt` do in JavaScript.
* `calculateDecay` performs only field arithmetic, so it is embedded over `ℚ`
  with the clock value read from `Date.now()` made an explicit argument `now`.
* The callback-driven arc animation of `PingEngine` is embedded as a function
  of elapsed time since ping creation, assuming callbacks fire with negligible
  latency (`requestAnimationFrame`/`setTimeout` delays are absorbed into the
  claims' ε), and as a step machine over the `animatingArcs`/`persistentArcs`
  registries for the creation/fade/evict events.
-/

namespace RaysEarth

noncomputable section

open Real

/-! ## JavaScript number model -/

abbrev JSNum := Option ℝ

/-- JavaScript `Math.atan2 y x` on finite inputs (angle of the point `(x, y)`,
with `atan2 0 0 = 0` as in JavaScript). -/
def atan2 (y x : ℝ) : ℝ :=
  if 0 < x then arctan (y / x)
  else if x < 0 then (if 0 ≤ y then arctan (y / x) + π else arctan (y / x) - π)
  else if 0 < y then π / 2
  else if y < 0 then -(π / 2)
  else 0

def jneg : JSNum → JSNum
  | some a => some (-a)
  | none   => none

def jadd : JSNum → JSNum → JSNum
  | some a, some b => some (a + b)
  | _, _ => none

def jsub : JSNum → JSNum → JSNum
  | some a, some b => some (a - b)
  | _, _ => none

def jmul : JSNum → JSNum → JSNum
  | some a, some b => some (a * b)
  | _, _ => none

/-- JavaScript division; `x / 0` is non-finite (`0/0 = NaN`, `x/0 = ±∞`). -/
def jdiv : JSNum → JSNum → JSNum
  | some a, some b => if b = 0 then none else some (a / b)
  | _, _ => none

def jsin : JSNum → JSNum
  | some a => some (sin a)
  | none   => none

def jcos : JSNum → JSNum
  | some a => some (cos a)
  | none   => none

/-- JavaScript `Math.sqrt`; the square root of a negative number is NaN. -/
def jsqrt : JSNum → JSNum
  | some a => if a < 0 then none else some (Real.sqrt a)
  | none   => none

def jatan2 : JSNum → JSNum → JSNum
  | some y, some x => some (atan2 y x)
  | _, _ => none

/-- JavaScript `Math.max` (NaN-propagating). -/
def jmax : JSNum → JSNum → JSNum
  | some a, some b => some (max a b)
  | _, _ => none

/-- JavaScript `Math.min` (NaN-propagating). -/
def jmin : JSNum → JSNum → JSNum
  | some a, some b => some (min a b)
  | _, _ => none

/-! ## `src/lib/geo.ts` -/

/-- `toRadians` from geo.ts: `degrees * (Math.PI / 180)`. -/
def toRadians (degrees : JSNum) : JSNum := jmul degrees (some (π / 180))

/-- `toDegrees` from geo.ts: `radians * (180 / Math.PI)`. -/
def toDegrees (radians : JSNum) : JSNum := jmul radians (some (180 / π))

/-- `haversineDistance` from geo.ts (Earth radius `R = 6371` km). -/
def haversineDistance (lat1 lng1 lat2 lng2 : JSNum) : JSNum :=
  let dLat := toRadians (jsub lat2 lat1)
  let dLng := toRadians (jsub lng2 lng1)
  let a := jadd
    (jmul (jsin (jdiv dLat (some 2))) (jsin (jdiv dLat (some 2))))
    (jmul
      (jmul (jmul (jcos (toRadians lat1)) (jcos (toRadians lat2)))
        (jsin (jdiv dLng (some 2))))
      (jsin (jdiv dLng (some 2))))
  let c := jmul (some 2) (jatan2 (jsqrt a) (jsqrt (jsub (some 1) a)))
  jmul (some 6371) c

/-- `interpolateGreatCircle` from geo.ts: `numPoints + 1` samples of the great
circle from `(lat1, lng1)` to `(lat2, lng2)`, as `(lat, lng)` pairs in degrees.
The loop `for i in 0..numPoints` is written as a map over `List.range`. -/
def interpolateGreatCircle (lat1 lng1 lat2 lng2 : JSNum) (numPoints : ℕ) :
    List (JSNum × JSNum) :=
  let lat1Rad := toRadians lat1
  let lng1Rad := toRadians lng1
  let lat2Rad := toRadians lat2
  let lng2Rad := toRadians lng2
  let d := jdiv (haversineDistance lat1 lng1 lat2 lng2) (some 6371)
  (List.range (numPoints + 1)).map fun (i : ℕ) =>
    let f := jdiv (some (i : ℝ)) (some (numPoints : ℝ))
    let a := jdiv (jsin (jmul (jsub (some 1) f) d)) (jsin d)
    let b := jdiv (jsin (jmul f d)) (jsin d)
    let x := jadd (jmul (jmul a (jcos lat1Rad)) (jcos lng1Rad))
                  (jmul (jmul b (jcos lat2Rad)) (jcos lng2Rad))
    let y := jadd (jmul (jmul a (jcos lat1Rad)) (jsin lng1Rad))
                  (jmul (jmul b (jcos lat2Rad)) (jsin lng2Rad))
    let z := jadd (jmul a (jsin lat1Rad)) (jmul b (jsin lat2Rad))
    let latRad := jatan2 z (jsqrt (jadd (jmul x x) (jmul y y)))
    let lngRad := jatan2 y x
    (toDegrees latRad, toDegrees lngRad)

/-- A Three.js `Vector3` whose components are JavaScript numbers. -/
structure JSVec3 where
  x : JSNum
  y : JSNum
  z : JSNum

/-- `latLngToVector3` from geo.ts. -/
def latLngToVector3 (lat lng radius : JSNum) : JSVec3 :=
  let phi := toRadians (jsub (some 90) lat)
  let theta := toRadians (jadd lng (some 180))
  { x := jmul (jmul (jneg radius) (jsin phi)) (jcos theta)
    y := jmul radius (jcos phi)
    z := jmul (jmul radius (jsin phi)) (jsin theta) }

/-- `calculateDecay` from geo.ts, with the `Date.now()` read made an explicit
argument `now`; timestamps are in milliseconds. -/
def calculateDecay (lastActive : ℚ) (isOnline : Bool) (now : ℚ) : ℚ :=
  if isOnline then 1
  else
    let ageMs := now - lastActive
    let ageHours := ageMs / (60 * 60 * 1000)
    max 0 (1 - ageHours / 24)

/-! ## `src/components/PingEngine.tsx` — arc geometry -/

/-- Arc height scaling from PingEngine.tsx lines 108–116: the apex height is
`maxHeight * heightScale` where `heightScale` linearly interpolates between
20% and 100% as the endpoint distance moves through the 500 km – 10000 km
band, clamped at both ends. -/
def scaledHeight (distance : JSNum) : JSNum :=
  let minDistance : JSNum := some 500
  let maxDistance : JSNum := some 10000
  let normalizedDistance :=
    jmin (jmax (jdiv (jsub distance minDistance) (jsub maxDistance minDistance)) (some 0))
      (some 1)
  let heightScale := jadd (some 0.2) (jmul normalizedDistance (some 0.8))
  jmul (some 60) heightScale

/-- The `positions` array of PingEngine.tsx lines 119–134: the interpolated
arc points lifted to 3D, with the first and last entries replaced by the exact
start/end dot positions at `globeRadius = 100` and the middle entries boosted
by `sin(t·π) · scaledHeight`.  The JavaScript `arcPoints.map((point, index))`
with `t = index / (arcPoints.length - 1)` is written as an index loop;
`arcPoints` has exactly `numPoints + 1` entries, and `t === 0`/`t === 1` hold
exactly at indices `0` and `numPoints`. -/
def pingPositions (fromLat fromLng toLat toLng : JSNum) (numPoints : ℕ) : List JSVec3 :=
  let arcPoints := interpolateGreatCircle fromLat fromLng toLat toLng numPoints
  let startPos := latLngToVector3 fromLat fromLng (some 100)
  let endPos := latLngToVector3 toLat toLng (some 100)
  let h := scaledHeight (haversineDistance fromLat fromLng toLat toLng)
  (List.range (numPoints + 1)).map fun i =>
    if i = 0 then startPos
    else if i = numPoints then endPos
    else
      let point := arcPoints.getD i (none, none)
      let t := jdiv (some (i : ℝ)) (some (numPoints : ℝ))
      let heightBoost := jmul (jsin (jmul t (some π))) h
      latLngToVector3 point.1 point.2 (jadd (some 100) heightBoost)

/-- The `isFinite`/`isNaN` component test of PingEngine.tsx lines 137–144. -/
def isFiniteNum : JSNum → Bool
  | some _ => true
  | none   => false

def isFiniteVec (v : JSVec3) : Bool :=
  isFiniteNum v.x && isFiniteNum v.y && isFiniteNum v.z

/-- `validPositions` from PingEngine.tsx lines 137–144: the computed path
points with every non-finite entry filtered out. -/
def validPositions (fromLat fromLng toLat toLng : JSNum) (numPoints : ℕ) : List JSVec3 :=
  (pingPositions fromLat fromLng toLat toLng numPoints).filter isFiniteVec

/-! ## `src/components/PingEngine.tsx` — engine registries -/

/-- An inbound ping event (the fields of `Ping` the engine reads). -/
structure PingEvent where
  id : String
  fromLat : JSNum
  fromLng : JSNum
  toLat : JSNum
  toLng : JSNum

/-- The engine's mutable registries: `animatingArcsRef` (a `Set` of ids),
the key set of `persistentArcsRef` (a `Map` keyed by id), and a log of the
one-shot `playBong` cues scheduled so far (one entry per `setTimeout` call at
PingEngine.tsx lines 359–363). -/
structure EngineState where
  animating : Finset String
  persistent : Finset String
  bongs : List String

/-- Processing one ping event (PingEngine.tsx lines 81–163 and 359–363):
skip if the id is already animating or persisted; release the id and leave the
state unchanged if fewer than two finite path points remain or the Three.js
tube construction throws (`tubeOk = false` models the `catch` branch of the
external `TubeGeometry` call); otherwise register the arc and schedule the
one-shot bong cue. -/
def processPing (s : EngineState) (p : PingEvent) (tubeOk : Bool) : EngineState :=
  if p.id ∈ s.animating ∨ p.id ∈ s.persistent then s
  else if (validPositions p.fromLat p.fromLng p.toLat p.toLng 100).length < 2 then s
  else if tubeOk = false then s
  else { s with animating := insert p.id s.animating, bongs := p.id :: s.bongs }

/-- `startFadeToWhite` registry effect (PingEngine.tsx lines 314–325): the arc
moves from the animating set to the persistent map.  It is only ever invoked
for an arc whose drawing/glow chain is running, hence the guard. -/
def startFade (s : EngineState) (id : String) : EngineState :=
  if id ∈ s.animating then
    { s with animating := s.animating.erase id, persistent := insert id s.persistent }
  else s

/-- Eviction of a persistent arc by `updateOpacities` (PingEngine.tsx lines
46–53) once it is 24 hours old. -/
def evictArc (s : EngineState) (id : String) : EngineState :=
  { s with persistent := s.persistent.erase id }

/-- The engine events that touch the registries. -/
inductive EngineOp where
  | ping (p : PingEvent) (tubeOk : Bool)
  | fadeStart (id : String)
  | evict (id : String)

def engineStep (s : EngineState) : EngineOp → EngineState
  | .ping p tubeOk => processPing s p tubeOk
  | .fadeStart id  => startFade s id
  | .evict id      => evictArc s id

/-- A ping id is live while it is animating or persisted. -/
def liveArc (id : String) (s : EngineState) : Prop :=
  id ∈ s.animating ∨ id ∈ s.persistent

/-! ## `src/components/PingEngine.tsx` — phase timeline

The arc animation is a chain of callbacks: the clock wipe runs for
`drawDuration = 3000` ms and then calls `startGlowPhase`; the glow runs for
`glowDuration = 5000` ms and then calls `startFadeToWhite`; that registers the
arc in `persistentArcs` with `createdAt = Date.now()` (i.e. the fade start,
8000 ms after creation) and starts a 10-second GSAP fade to 10% opacity; from
then on `updateOpacities` (run every second) applies the long decay once
`ageMs > 10000` and removes the arc once `ageHours >= 24` — 24 hours measured
from `createdAt`, the fade start, not from ping creation.  `pingPhase` reads
this timeline off elapsed time since creation, assuming negligible callback
latency. -/

inductive PingPhase where
  | drawing
  | glowing
  | fading
  | decaying
  | evicted
deriving DecidableEq

/-- `drawDuration` (PingEngine.tsx line 259), in ms. -/
def drawDuration : ℕ := 3000

/-- `glowDuration` (PingEngine.tsx line 290), in ms. -/
def glowDuration : ℕ := 5000

/-- The GSAP `duration: 10` fade to white (PingEngine.tsx lines 328–332), in ms. -/
def fadeDuration : ℕ := 10000

/-- 24 hours in ms (the `ageHours >= 24` eviction test, PingEngine.tsx line 46). -/
def dayMs : ℕ := 24 * 60 * 60 * 1000

/-- The phase of a ping as a function of elapsed ms since its creation. -/
def pingPhase (elapsed : ℕ) : PingPhase :=
  if elapsed < drawDuration then .drawing
  else if elapsed < drawDuration + glowDuration then .glowing
  else if elapsed < drawDuration + glowDuration + fadeDuration then .fading
  else if elapsed < drawDuration + glowDuration + dayMs then .decaying
  else .evicted

/-- Position of a phase in the Drawing → Glowing → Fading → Decaying → evicted
order. -/
def phaseIndex : PingPhase → ℕ
  | .drawing  => 0
  | .glowing  => 1
  | .fading   => 2
  | .decaying => 3
  | .evicted  => 4

/-! ## `src/components/PresenceLayer.tsx` — presence tick -/

/-- The fields of a `Presence` row the layer reads. -/
structure Presence where
  id : String
  lat : ℚ
  lng : ℚ
  lastActive : ℚ
  isOnline : Bool

/-- One pass of the `PresenceLayer` effect over the incoming `presences` list
(PresenceLayer.tsx lines 37–162), tracking the key set of the `pointsRef`
map: a presence whose decay is `≤ 0` has its point removed (lines 41–55),
otherwise its point is created or updated in place (lines 57–140); afterwards
every point whose id no longer occurs in `presences` is removed (lines
144–162). -/
def presenceTick (now : ℚ) (points : Finset String) (presences : List Presence) :
    Finset String :=
  let updated := presences.foldl
    (fun pts p =>
      if calculateDecay p.lastActive p.isOnline now ≤ 0 then pts.erase p.id
      else insert p.id pts)
    points
  updated.filter fun id => ∃ p ∈ presences, p.id = id

/-! ## Decay model claims -/

/-- C2: `calculateDecay` returns exactly 1 whenever `isOnline` is true,
regardless of `lastActiveAt`; otherwise it returns
`max 0 (1 - ageHours / 24)` with `ageHours = (now - lastActiveAt) / 3600000`,
linear decay reaching exactly 0 at 24 hours offline. -/
theorem calculateDecay_spec :
    (∀ lastActive now : ℚ, calculateDecay lastActive true now = 1) ∧
    (∀ lastActive now : ℚ,
      calculateDecay lastActive false now =
        max 0 (1 - (now - lastActive) / 3600000 / 24)) ∧
    (∀ lastActive : ℚ, calculateDecay lastActive false (lastActive + 24 * 3600000) = 0) := by
  refine ⟨fun _ _ => rfl, fun lastActive now => by norm_num [calculateDecay], ?_⟩
  intro lastActive
  simp only [calculateDecay, Bool.false_eq_true, if_false]
  norm_num

/-- C4 counterexample: the code's `calculateDecay` reads `Date.now()` itself,
so its result is not a function of the two declared inputs alone — with
`lastActiveAt = 0` and `isOnline = false` fixed, an evaluation at clock time 0
returns 1 while an evaluation 24 hours later returns 0. -/
theorem calculateDecay_clock_counterexample :
    calculateDecay 0 false 0 = 1 ∧ calculateDecay 0 false 86400000 = 0 ∧
      calculateDecay 0 false 0 ≠ calculateDecay 0 false 86400000 := by
  norm_num [calculateDecay]

/-- C4 amended: `calculateDecay` is a pure, deterministic function of
`(lastActiveAt, isOnline)` together with the clock value `now` it reads from
`Date.now()`: its result depends only on `isOnline` and the elapsed time
`now - lastActiveAt` (shifting both timestamps equally changes nothing), and
when `isOnline` it is 1 independent of both timestamps. -/
theorem calculateDecay_pure :
    (∀ (lastActive now shift : ℚ) (isOnline : Bool),
      calculateDecay (lastActive + shift) isOnline (now + shift) =
        calculateDecay lastActive isOnline now) ∧
    (∀ lastActive lastActive' now now' : ℚ,
      calculateDecay lastActive true now = calculateDecay lastActive' true now') := by
  refine ⟨?_, fun _ _ _ _ => rfl⟩
  intro lastActive now shift isOnline
  cases isOnline
  · simp only [calculateDecay, Bool.false_eq_true, if_false]
    ring_nf
  · rfl

/-! ## Ping phase timeline claims -/

/-- C1 counterexample: one second past 24 hours after its creation (well past
any tick granule — the eviction sweep runs every 1000 ms), a ping is still
present in phase Decaying, because the code measures the 24-hour eviction age
from `createdAt = Date.now()` taken inside `startFadeToWhite` (8000 ms after
creation), not from the ping's creation time. -/
theorem pingPhase_not_evicted_at_24h :
    pingPhase (dayMs + 1000) = PingPhase.decaying ∧
      pingPhase (dayMs + 1000) ≠ PingPhase.evicted := by
  decide

/-- C1 amended: a ping created at `t0` is in phase Drawing at `t0`, Glowing
throughout `[t0+D, t0+D+G)`, Fading throughout `[t0+D+G, t0+D+G+F)`, Decaying
throughout `[t0+D+G+F, t0+D+G+24h)`, and is evicted exactly from
`t0+D+G+24h` on — 24 hours measured from the fade start at `t0+D+G`, not from
`t0`; the phase never regresses and advances by at most one step per
millisecond, so no phase is ever skipped. -/
theorem pingPhase_lifecycle :
    pingPhase 0 = PingPhase.drawing ∧
    (∀ e, drawDuration ≤ e → e < drawDuration + glowDuration →
      pingPhase e = PingPhase.glowing) ∧
    (∀ e, drawDuration + glowDuration ≤ e →
      e < drawDuration + glowDuration + fadeDuration → pingPhase e = PingPhase.fading) ∧
    (∀ e, drawDuration + glowDuration + fadeDuration ≤ e →
      e < drawDuration + glowDuration + dayMs → pingPhase e = PingPhase.decaying) ∧
    (∀ e, pingPhase e = PingPhase.evicted ↔ drawDuration + glowDuration + dayMs ≤ e) ∧
    (∀ e e', e ≤ e' → phaseIndex (pingPhase e) ≤ phaseIndex (pingPhase e')) ∧
    (∀ e, pingPhase (e + 1) = pingPhase e ∨
      phaseIndex (pingPhase (e + 1)) = phaseIndex (pingPhase e) + 1) := by
  unfold pingPhase drawDuration glowDuration fadeDuration dayMs
  refine ⟨by norm_num, ?_, ?_, ?_, ?_, ?_, ?_⟩
  · intro e h1 h2
    split_ifs <;> first | rfl | omega
  · intro e h1 h2
    split_ifs <;> first | rfl | omega
  · intro e h1 h2
    split_ifs <;> first | rfl | omega
  · intro e
    split_ifs with h1 h2 h3 h4 <;> simp <;> omega
  · intro e e' h
    split_ifs <;> simp [phaseIndex] <;> omega
  · intro e
    split_ifs <;> simp [phaseIndex] <;> omega

/-- Witness for `pingPhase_lifecycle` at concrete instants. -/
theorem pingPhase_lifecycle_witness :
    pingPhase 3001 = PingPhase.glowing ∧ pingPhase 8001 = PingPhase.fading ∧
      pingPhase 18001 = PingPhase.decaying ∧ pingPhase 86408000 = PingPhase.evicted ∧
      phaseIndex (pingPhase 100) ≤ phaseIndex (pingPhase 20000) :=
  ⟨pingPhase_lifecycle.2.1 3001 (by norm_num [drawDuration])
      (by norm_num [drawDuration, glowDuration]),
    pingPhase_lifecycle.2.2.1 8001 (by norm_num [drawDuration, glowDuration])
      (by norm_num [drawDuration, glowDuration, fadeDuration]),
    pingPhase_lifecycle.2.2.2.1 18001
      (by norm_num [drawDuration, glowDuration, fadeDuration])
      (by norm_num [drawDuration, glowDuration, fadeDuration, dayMs]),
    (pingPhase_lifecycle.2.2.2.2.1 86408000).mpr
      (by norm_num [drawDuration, glowDuration, dayMs]),
    pingPhase_lifecycle.2.2.2.2.2.1 100 20000 (by norm_num)⟩

/-! ## Engine registry claims -/

/-- C9: processing a ping event whose id is already live (animating or
persisted) leaves the engine state completely unchanged: no second arc, no
new geometry, no new cue. -/
theorem processPing_duplicate (s : EngineState) (p : PingEvent) (tubeOk : Bool)
    (h : liveArc p.id s) : processPing s p tubeOk = s := by
  unfold processPing
  unfold liveArc at h
  rw [if_pos h]

/-- Witness for `processPing_duplicate` on a concrete duplicate event. -/
theorem processPing_duplicate_witness :
    processPing ⟨{"a"}, ∅, []⟩ ⟨"a", some 0, some 0, some 0, some 0⟩ true =
      ⟨{"a"}, ∅, []⟩ :=
  processPing_duplicate ⟨{"a"}, ∅, []⟩ ⟨"a", some 0, some 0, some 0, some 0⟩ true
    (by simp [liveArc])

/-! ## Presence registry claim -/

/-- Membership of an id in the presence fold is unaffected by presences
carrying other ids. -/
theorem presenceFold_mem_of_ne (now : ℚ) (rest : List Presence) (acc : Finset String)
    (x : String) (h : ∀ r ∈ rest, r.id ≠ x) :
    (x ∈ rest.foldl
        (fun pts p =>
          if calculateDecay p.lastActive p.isOnline now ≤ 0 then pts.erase p.id
          else insert p.id pts)
        acc) ↔ x ∈ acc := by
  induction rest generalizing acc with
  | nil => exact Iff.rfl
  | cons q rest ih =>
    have hq : x ≠ q.id := (h q (List.mem_cons_self ..)).symm
    have hrest : ∀ r ∈ rest, r.id ≠ x := fun r hr => h r (List.mem_cons_of_mem _ hr)
    simp only [List.foldl_cons]
    rw [ih _ hrest]
    split_ifs
    · simp [Finset.mem_erase, hq]
    · simp [Finset.mem_insert, hq]

/-- A presence's id survives the decay fold exactly when its decay is
positive. -/
theorem presenceFold_mem (now : ℚ) (p : Presence) :
    ∀ (presences : List Presence) (points : Finset String),
      presences.Pairwise (fun a b => a.id ≠ b.id) → p ∈ presences →
      ((p.id ∈ presences.foldl
          (fun pts q =>
            if calculateDecay q.lastActive q.isOnline now ≤ 0 then pts.erase q.id
            else insert q.id pts)
          points) ↔ 0 < calculateDecay p.lastActive p.isOnline now) := by
  intro presences
  induction presences with
  | nil => intro points _ hp; cases hp
  | cons q rest ih =>
    intro points hids hp
    rw [List.pairwise_cons] at hids
    simp only [List.foldl_cons]
    rcases List.mem_cons.mp hp with heq | hmem
    · subst heq
      rw [presenceFold_mem_of_ne now rest _ p.id fun r hr => (hids.1 r hr).symm]
      split_ifs with hd
      · simp [not_lt.mpr hd]
      · simp [not_le.mp hd]
    · exact ih _ hids.2 hmem

/-- C7: on a tick over a batch of presences with distinct ids, a presence's
point is in the registry afterwards if and only if its derived brightness is
positive — brightness `≤ 0` means it is evicted (removed together with its
render resources, with no archive), whatever the prior registry contents. -/
theorem presenceTick_spec (now : ℚ) (points : Finset String) (presences : List Presence)
    (hids : presences.Pairwise fun a b => a.id ≠ b.id) (p : Presence)
    (hp : p ∈ presences) :
    (p.id ∈ presenceTick now points presences ↔
      0 < calculateDecay p.lastActive p.isOnline now) := by
  have hex : ∃ q ∈ presences, q.id = p.id := ⟨p, hp, rfl⟩
  simp only [presenceTick, Finset.mem_filter]
  constructor
  · exact fun h => (presenceFold_mem now p presences points hids hp).mp h.1
  · exact fun h => ⟨(presenceFold_mem now p presences points hids hp).mpr h, hex⟩

/-- Witness for `presenceTick_spec`: a presence six hours offline has
brightness 3/4 and is retained. -/
theorem presenceTick_spec_witness :
    ("p1" ∈ presenceTick 21600000 ∅ [⟨"p1", 0, 0, 0, false⟩] ↔
      0 < calculateDecay 0 false 21600000) :=
  presenceTick_spec 21600000 ∅ [⟨"p1", 0, 0, 0, false⟩] (by simp)
    ⟨"p1", 0, 0, 0, false⟩ (by simp)

/-! ## One-shot cue claim -/

/-- A single engine event other than evicting `id` keeps `id` live and keeps
its scheduled one-shot cue count at one. -/
theorem engineStep_preserves_bong (id : String) (s : EngineState) (o : EngineOp)
    (hno : o ≠ .evict id) (hlive : liveArc id s) (hcount : s.bongs.count id = 1) :
    liveArc id (engineStep s o) ∧ (engineStep s o).bongs.count id = 1 := by
  cases o with
  | ping p tubeOk =>
    simp only [engineStep, processPing]
    split_ifs with h1 h2 h3
    · exact ⟨hlive, hcount⟩
    · exact ⟨hlive, hcount⟩
    · exact ⟨hlive, hcount⟩
    · have hne : id ≠ p.id := by
        intro he
        exact h1 (he ▸ hlive)
      refine ⟨?_, by simp [List.count_cons, hne, hcount]⟩
      rcases hlive with ha | hp
      · exact Or.inl (Finset.mem_insert_of_mem ha)
      · exact Or.inr hp
  | fadeStart j =>
    simp only [engineStep, startFade]
    split_ifs with hj
    · refine ⟨?_, hcount⟩
      rcases hlive with ha | hp
      · by_cases hij : id = j
        · exact Or.inr (hij ▸ Finset.mem_insert_self id s.persistent)
        · exact Or.inl (Finset.mem_erase.mpr ⟨hij, ha⟩)
      · exact Or.inr (Finset.mem_insert_of_mem hp)
    · exact ⟨hlive, hcount⟩
  | evict j =>
    have hne : id ≠ j := by
      intro he
      exact hno (by rw [he])
    simp only [engineStep, evictArc]
    refine ⟨?_, hcount⟩
    rcases hlive with ha | hp
    · exact Or.inl ha
    · exact Or.inr (Finset.mem_erase.mpr ⟨hne, hp⟩)

/-- Any sequence of engine events that never evicts `id` keeps `id` live with
exactly one scheduled cue. -/
theorem engineOps_preserve_bong (id : String) (ops : List EngineOp) :
    ∀ s : EngineState, (∀ o ∈ ops, o ≠ .evict id) → liveArc id s →
      s.bongs.count id = 1 →
      liveArc id (ops.foldl engineStep s) ∧
        (ops.foldl engineStep s).bongs.count id = 1 := by
  induction ops with
  | nil => exact fun s _ h1 h2 => ⟨h1, h2⟩
  | cons o rest ih =>
    intro s hno hlive hcount
    simp only [List.foldl_cons]
    have h := engineStep_preserves_bong id s o (hno o (List.mem_cons_self ..)) hlive hcount
    exact ih _ (fun o' ho' => hno o' (List.mem_cons_of_mem _ ho')) h.1 h.2

/-- C5: once a fresh ping with a usable path is created, its one-shot
"entered Glowing" bong cue is scheduled exactly once, and it stays at exactly
one — never zero, never more — across every further batch of engine events
(duplicate deliveries, fade transitions, other pings) for the whole
Drawing→Decaying lifetime, i.e. as long as the arc is not evicted, no matter
how irregular or bursty the event sequence is. -/
theorem pingBong_exactly_once (s : EngineState) (p : PingEvent) (tubeOk : Bool)
    (ops : List EngineOp)
    (hfresh : ¬liveArc p.id s) (hzero : s.bongs.count p.id = 0)
    (hpath : 2 ≤ (validPositions p.fromLat p.fromLng p.toLat p.toLng 100).length)
    (htube : tubeOk = true)
    (hops : ∀ o ∈ ops, o ≠ .evict p.id) :
    (ops.foldl engineStep (engineStep s (.ping p tubeOk))).bongs.count p.id = 1 ∧
      liveArc p.id (ops.foldl engineStep (engineStep s (.ping p tubeOk))) := by
  subst htube
  have hstep : engineStep s (.ping p true) =
      { s with animating := insert p.id s.animating, bongs := p.id :: s.bongs } := by
    have hfresh' : ¬(p.id ∈ s.animating ∨ p.id ∈ s.persistent) := hfresh
    simp only [engineStep, processPing]
    rw [if_neg hfresh', if_neg (not_lt.mpr hpath)]
    simp
  rw [hstep]
  have h := engineOps_preserve_bong p.id ops
    { s with animating := insert p.id s.animating, bongs := p.id :: s.bongs }
    hops (Or.inl (Finset.mem_insert_self ..)) (by simp [List.count_cons, hzero])
  exact ⟨h.2, h.1⟩

/-! ## JSNum computation lemmas -/

@[simp] theorem jneg_some (a : ℝ) : jneg (some a) = some (-a) := rfl

@[simp] theorem jadd_some (a b : ℝ) : jadd (some a) (some b) = some (a + b) := rfl

@[simp] theorem jsub_some (a b : ℝ) : jsub (some a) (some b) = some (a - b) := rfl

@[simp] theorem jmul_some (a b : ℝ) : jmul (some a) (some b) = some (a * b) := rfl

@[simp] theorem jsin_some (a : ℝ) : jsin (some a) = some (sin a) := rfl

@[simp] theorem jcos_some (a : ℝ) : jcos (some a) = some (cos a) := rfl

@[simp] theorem jatan2_some (y x : ℝ) : jatan2 (some y) (some x) = some (atan2 y x) := rfl

@[simp] theorem jmax_some (a b : ℝ) : jmax (some a) (some b) = some (max a b) := rfl

@[simp] theorem jmin_some (a b : ℝ) : jmin (some a) (some b) = some (min a b) := rfl

@[simp] theorem jdiv_some_ne (a b : ℝ) (hb : b ≠ 0) : jdiv (some a) (some b) = some (a / b) := by
  simp [jdiv, hb]

@[simp] theorem jsqrt_some_nonneg (a : ℝ) (ha : 0 ≤ a) : jsqrt (some a) = some (Real.sqrt a) := by
  simp [jsqrt, not_lt.mpr ha]

@[simp] theorem jdiv_zero_denom (x : JSNum) : jdiv x (some 0) = none := by
  cases x <;> simp [jdiv]

@[simp] theorem jneg_none : jneg none = none := rfl

@[simp] theorem jadd_none_left (y : JSNum) : jadd none y = none := by cases y <;> rfl

@[simp] theorem jadd_none_right (x : JSNum) : jadd x none = none := by cases x <;> rfl

@[simp] theorem jsub_none_left (y : JSNum) : jsub none y = none := by cases y <;> rfl

@[simp] theorem jsub_none_right (x : JSNum) : jsub x none = none := by cases x <;> rfl

@[simp] theorem jmul_none_left (y : JSNum) : jmul none y = none := by cases y <;> rfl

@[simp] theorem jmul_none_right (x : JSNum) : jmul x none = none := by cases x <;> rfl

@[simp] theorem jdiv_none_left (y : JSNum) : jdiv none y = none := by cases y <;> rfl

@[simp] theorem jdiv_none_right (x : JSNum) : jdiv x none = none := by cases x <;> rfl

@[simp] theorem jsin_none : jsin none = none := rfl

@[simp] theorem jcos_none : jcos none = none := rfl

@[simp] theorem jsqrt_none : jsqrt none = none := rfl

@[simp] theorem jatan2_none_left (x : JSNum) : jatan2 none x = none := by cases x <;> rfl

@[simp] theorem jatan2_none_right (y : JSNum) : jatan2 y none = none := by cases y <;> rfl

/-! ## atan2 values -/

theorem atan2_zero_one : atan2 0 1 = 0 := by
  simp [atan2, Real.arctan_zero]

theorem atan2_one_zero : atan2 1 0 = π / 2 := by
  norm_num [atan2]

theorem atan2_pos_self (x : ℝ) (hx : 0 < x) : atan2 x x = π / 4 := by
  rw [atan2, if_pos hx, div_self hx.ne', Real.arctan_one]

theorem atan2_pos_den (y x : ℝ) (hx : 0 < x) : atan2 y x = arctan (y / x) := by
  rw [atan2, if_pos hx]

/-- `arctan x ≤ x` for nonnegative `x`. -/
theorem arctan_le_self {x : ℝ} (hx : 0 ≤ x) : arctan x ≤ x := by
  have h0 : 0 ≤ arctan x := by
    rw [← Real.arctan_zero]
    exact Real.arctan_strictMono.monotone hx
  calc arctan x ≤ tan (arctan x) := Real.le_tan h0 (Real.arctan_lt_pi_div_two x)
    _ = x := Real.tan_arctan x

/-! ## haversineDistance reductions -/

/-- On finite inputs the haversine pipeline reduces to a real-valued formula,
provided the Brouwer term `A` lies in `[0, 1]` (so the square roots are of
nonnegative numbers). -/
theorem haversineDistance_some (l1 g1 l2 g2 A : ℝ)
    (hA : A = sin ((l2 - l1) * (π / 180) / 2) * sin ((l2 - l1) * (π / 180) / 2) +
      cos (l1 * (π / 180)) * cos (l2 * (π / 180)) * sin ((g2 - g1) * (π / 180) / 2) *
        sin ((g2 - g1) * (π / 180) / 2))
    (h0 : 0 ≤ A) (h1 : A ≤ 1) :
    haversineDistance (some l1) (some g1) (some l2) (some g2) =
      some (6371 * (2 * atan2 (Real.sqrt A) (Real.sqrt (1 - A)))) := by
  subst hA
  simp only [haversineDistance, toRadians, jsub_some, jmul_some, jadd_some, jsin_some,
    jcos_some]
  rw [jdiv_some_ne _ _ (two_ne_zero), jdiv_some_ne _ _ (two_ne_zero)]
  simp only [jsin_some, jmul_some, jadd_some, jsub_some]
  rw [jsqrt_some_nonneg _ h0, jsqrt_some_nonneg _ (by linarith)]
  simp only [jatan2_some, jmul_some]

/-- `haversineDistance a a = 0` on finite coordinates. -/
theorem haversineDistance_self (lat lng : ℝ) :
    haversineDistance (some lat) (some lng) (some lat) (some lng) = some 0 := by
  rw [haversineDistance_some lat lng lat lng 0 (by simp) le_rfl zero_le_one]
  rw [show (1 : ℝ) - 0 = 1 by ring, Real.sqrt_zero, Real.sqrt_one, atan2_zero_one]
  norm_num

/-- The symmetric swap of the haversine argument term. -/
theorem havA_symm (l1 g1 l2 g2 : ℝ) :
    sin ((l2 - l1) * (π / 180) / 2) * sin ((l2 - l1) * (π / 180) / 2) +
      cos (l1 * (π / 180)) * cos (l2 * (π / 180)) * sin ((g2 - g1) * (π / 180) / 2) *
        sin ((g2 - g1) * (π / 180) / 2) =
    sin ((l1 - l2) * (π / 180) / 2) * sin ((l1 - l2) * (π / 180) / 2) +
      cos (l2 * (π / 180)) * cos (l1 * (π / 180)) * sin ((g1 - g2) * (π / 180) / 2) *
        sin ((g1 - g2) * (π / 180) / 2) := by
  have h1 : (l1 - l2) * (π / 180) / 2 = -((l2 - l1) * (π / 180) / 2) := by ring
  have h2 : (g1 - g2) * (π / 180) / 2 = -((g2 - g1) * (π / 180) / 2) := by ring
  rw [h1, h2, Real.sin_neg, Real.sin_neg]
  ring

/-- `haversineDistance` is symmetric in its endpoints (finite inputs). -/
theorem haversineDistance_symm (l1 g1 l2 g2 : ℝ) :
    haversineDistance (some l1) (some g1) (some l2) (some g2) =
      haversineDistance (some l2) (some g2) (some l1) (some g1) := by
  simp only [haversineDistance, toRadians, jsub_some, jmul_some, jadd_some, jsin_some,
    jcos_some]
  rw [jdiv_some_ne _ _ (two_ne_zero), jdiv_some_ne _ _ (two_ne_zero),
    jdiv_some_ne _ _ (two_ne_zero), jdiv_some_ne _ _ (two_ne_zero)]
  simp only [jsin_some, jmul_some, jadd_some, jsub_some]
  rw [havA_symm l1 g1 l2 g2]

/-- The distance between antipodal equatorial points is `6371 π` km. -/
theorem haversineDistance_antipodal :
    haversineDistance (some 0) (some 0) (some 0) (some 180) = some (6371 * π) := by
  have hA : (1 : ℝ) =
      sin ((0 - 0) * (π / 180) / 2) * sin ((0 - 0) * (π / 180) / 2) +
        cos (0 * (π / 180)) * cos (0 * (π / 180)) * sin ((180 - 0) * (π / 180) / 2) *
          sin ((180 - 0) * (π / 180) / 2) := by
    rw [show (180 - 0 : ℝ) * (π / 180) / 2 = π / 2 by ring]
    norm_num [Real.sin_pi_div_two]
  rw [haversineDistance_some 0 0 0 180 1 hA zero_le_one le_rfl]
  rw [show (1 : ℝ) - 1 = 0 by ring, Real.sqrt_one, Real.sqrt_zero, atan2_one_zero]
  rw [show (6371 : ℝ) * (2 * (π / 2)) = 6371 * π by ring]

/-- The distance from `(0,0)` to `(0,90)` is a quarter circumference. -/
theorem haversineDistance_quarter :
    haversineDistance (some 0) (some 0) (some 0) (some 90) = some (6371 * (π / 2)) := by
  have hhalf : (Real.sqrt 2 / 2) * (Real.sqrt 2 / 2) = 1 / 2 := by
    rw [div_mul_div_comm, Real.mul_self_sqrt (by norm_num : (0 : ℝ) ≤ 2)]
    norm_num
  have hA : (1 / 2 : ℝ) =
      sin ((0 - 0) * (π / 180) / 2) * sin ((0 - 0) * (π / 180) / 2) +
        cos (0 * (π / 180)) * cos (0 * (π / 180)) * sin ((90 - 0) * (π / 180) / 2) *
          sin ((90 - 0) * (π / 180) / 2) := by
    rw [show (90 - 0 : ℝ) * (π / 180) / 2 = π / 4 by ring, Real.sin_pi_div_four]
    norm_num [hhalf]
  rw [haversineDistance_some 0 0 0 90 (1 / 2) hA (by norm_num) (by norm_num)]
  rw [show (1 : ℝ) - 1 / 2 = 1 / 2 by ring]
  rw [atan2_pos_self (Real.sqrt (1 / 2)) (Real.sqrt_pos.mpr (by norm_num))]
  rw [show (6371 : ℝ) * (2 * (π / 4)) = 6371 * (π / 2) by ring]

/-- The near-coincident pair `(0,0)`, `(0,0.001)` is closer than 500 km. -/
theorem haversineDistance_near :
    ∃ D : ℝ, haversineDistance (some 0) (some 0) (some 0) (some 0.001) = some D ∧
      D < 500 := by
  set s : ℝ := sin (π / 360000) with hs_def
  have hs0 : 0 ≤ s := by
    refine Real.sin_nonneg_of_nonneg_of_le_pi (by positivity) ?_
    exact div_le_self Real.pi_pos.le (by norm_num)
  have hsle : s ≤ π / 360000 := Real.sin_le (by positivity)
  have hs_small : s ≤ 0.00001 := by nlinarith [Real.pi_lt_d2]
  have hA0 : 0 ≤ s * s := mul_self_nonneg s
  have hA1 : s * s ≤ 1 := by
    nlinarith [Real.sin_le_one (π / 360000), Real.neg_one_le_sin (π / 360000)]
  have hA : s * s =
      sin ((0 - 0) * (π / 180) / 2) * sin ((0 - 0) * (π / 180) / 2) +
        cos (0 * (π / 180)) * cos (0 * (π / 180)) * sin ((0.001 - 0) * (π / 180) / 2) *
          sin ((0.001 - 0) * (π / 180) / 2) := by
    rw [show (0.001 - 0 : ℝ) * (π / 180) / 2 = π / 360000 by ring]
    norm_num [hs_def]
  rw [haversineDistance_some 0 0 0 0.001 (s * s) hA hA0 hA1]
  have hss : Real.sqrt (s * s) = s := Real.sqrt_mul_self hs0
  have h1ss : (0 : ℝ) < 1 - s * s := by nlinarith
  have hc0 : 0 < Real.sqrt (1 - s * s) := Real.sqrt_pos.mpr h1ss
  rw [hss, atan2_pos_den _ _ hc0]
  refine ⟨_, rfl, ?_⟩
  have hc09 : (0.9 : ℝ) ≤ Real.sqrt (1 - s * s) := by
    have h081 : Real.sqrt 0.81 ≤ Real.sqrt (1 - s * s) := Real.sqrt_le_sqrt (by nlinarith)
    rw [show (0.81 : ℝ) = 0.9 ^ 2 by norm_num,
      Real.sqrt_sq (by norm_num : (0 : ℝ) ≤ 0.9)] at h081
    exact h081
  have htle : s / Real.sqrt (1 - s * s) ≤ 0.00001 / 0.9 :=
    div_le_div₀ (by norm_num) hs_small (by norm_num) hc09
  have hat : arctan (s / Real.sqrt (1 - s * s)) ≤ 0.00001 / 0.9 :=
    le_trans (arctan_le_self (by positivity)) htle
  nlinarith [hat]

/-- C8: `haversineDistance a a = 0` for every finite coordinate `a`;
`haversineDistance` is symmetric; and the distance between antipodal points
`(0,0)` and `(0,180)` is `6371 π` km, within 1 km of 20015 — half the
sphere's circumference. -/
theorem haversine_metric :
    (∀ lat lng : ℝ,
      haversineDistance (some lat) (some lng) (some lat) (some lng) = some 0) ∧
    (∀ l1 g1 l2 g2 : ℝ,
      haversineDistance (some l1) (some g1) (some l2) (some g2) =
        haversineDistance (some l2) (some g2) (some l1) (some g1)) ∧
    haversineDistance (some 0) (some 0) (some 0) (some 180) = some (6371 * π) ∧
    20015 < 6371 * π ∧ 6371 * π < 20016 :=
  ⟨haversineDistance_self, haversineDistance_symm, haversineDistance_antipodal,
    by nlinarith [Real.pi_gt_d6], by nlinarith [Real.pi_lt_d4]⟩

/-! ## Arc apex height claim -/

/-- `scaledHeight` on a finite distance, as a clamped linear interpolation. -/
theorem scaledHeight_some (d : ℝ) :
    scaledHeight (some d) =
      some (60 * (0.2 + min (max ((d - 500) / (10000 - 500)) 0) 1 * 0.8)) := by
  simp only [scaledHeight, jsub_some]
  rw [jdiv_some_ne _ _ (by norm_num)]
  simp only [jmax_some, jmin_some, jadd_some, jmul_some]

/-- C6: the arc apex height is `60 · heightScale` where `heightScale` is the
linear interpolation of the endpoint distance through the 500 km – 10000 km
band, clamped to `[0.2, 1]`: at most 500 km gives the low end (height 12), at
least 10000 km gives the high end (height 60), and in between it is linear;
the quarter-circumference ping `(0,0) → (0,90)` gets the high end and the
near-coincident ping `(0,0) → (0,0.001)` gets the low end. -/
theorem arcHeight_spec :
    (∀ d : ℝ, d ≤ 500 → scaledHeight (some d) = some 12) ∧
    (∀ d : ℝ, 10000 ≤ d → scaledHeight (some d) = some 60) ∧
    (∀ d : ℝ, 500 ≤ d → d ≤ 10000 →
      scaledHeight (some d) = some (60 * (0.2 + (d - 500) / 9500 * 0.8))) ∧
    scaledHeight (haversineDistance (some 0) (some 0) (some 0) (some 90)) = some 60 ∧
    scaledHeight (haversineDistance (some 0) (some 0) (some 0) (some 0.001)) =
      some 12 := by
  have hlow : ∀ d : ℝ, d ≤ 500 → scaledHeight (some d) = some 12 := by
    intro d hd
    rw [scaledHeight_some]
    have h1 : (d - 500) / (10000 - 500) ≤ 0 :=
      div_nonpos_of_nonpos_of_nonneg (by linarith) (by norm_num)
    rw [max_eq_right h1, min_eq_left (by norm_num : (0 : ℝ) ≤ 1)]
    norm_num
  have hhigh : ∀ d : ℝ, 10000 ≤ d → scaledHeight (some d) = some 60 := by
    intro d hd
    rw [scaledHeight_some]
    have h1 : (1 : ℝ) ≤ (d - 500) / (10000 - 500) := by
      rw [le_div_iff₀ (by norm_num : (0 : ℝ) < 10000 - 500)]
      linarith
    rw [max_eq_left (by linarith), min_eq_right h1]
    norm_num
  have hmid : ∀ d : ℝ, 500 ≤ d → d ≤ 10000 →
      scaledHeight (some d) = some (60 * (0.2 + (d - 500) / 9500 * 0.8)) := by
    intro d h5 h10
    rw [scaledHeight_some]
    have h0 : (0 : ℝ) ≤ (d - 500) / (10000 - 500) := div_nonneg (by linarith) (by norm_num)
    have h1 : (d - 500) / (10000 - 500) ≤ 1 := by
      rw [div_le_one (by norm_num : (0 : ℝ) < 10000 - 500)]
      linarith
    rw [max_eq_left h0, min_eq_left h1]
    norm_num
  refine ⟨hlow, hhigh, hmid, ?_, ?_⟩
  · rw [haversineDistance_quarter]
    exact hhigh _ (by nlinarith [Real.pi_gt_d2])
  · obtain ⟨D, hD, h500⟩ := haversineDistance_near
    rw [hD]
    exact hlow D h500.le

/-- Witness for `arcHeight_spec` at concrete distances. -/
theorem arcHeight_spec_witness :
    scaledHeight (some 0) = some 12 ∧ scaledHeight (some 20000) = some 60 ∧
      scaledHeight (some 5000) = some (60 * (0.2 + (5000 - 500) / 9500 * 0.8)) :=
  ⟨arcHeight_spec.1 0 (by norm_num), arcHeight_spec.2.1 20000 (by norm_num),
    arcHeight_spec.2.2.1 5000 (by norm_num) (by norm_num)⟩

/-! ## Degenerate path lemmas -/

theorem getD_replicate_self {α : Type} (n : ℕ) (c : α) (i : ℕ) :
    (List.replicate n c).getD i c = c := by
  rcases Nat.lt_or_ge i n with h | h
  · rw [List.getD_eq_getElem _ c (by simpa using h)]
    exact List.getElem_replicate ..
  · exact List.getD_eq_default _ c (by simpa using h)

/-- With coincident endpoints the angular distance is 0, so both interpolation
coefficients are `sin 0 / sin 0 = 0/0` — NaN in JavaScript, the code has no
ε-guard — and every returned sample is a NaN pair. -/
theorem interpolateGreatCircle_coincident (lat lng : ℝ) (n : ℕ) :
    interpolateGreatCircle (some lat) (some lng) (some lat) (some lng) n =
      List.replicate (n + 1) (none, none) := by
  have hd : jdiv (haversineDistance (some lat) (some lng) (some lat) (some lng))
      (some 6371) = some 0 := by
    rw [haversineDistance_self, jdiv_some_ne _ _ (by norm_num)]
    norm_num
  simp only [interpolateGreatCircle, hd, toDegrees, jsin_some, Real.sin_zero,
    jdiv_zero_denom, jmul_none_left, jmul_none_right, jadd_none_left, jadd_none_right,
    jatan2_none_left, jatan2_none_right, jsqrt_none]
  rw [List.map_const', List.length_range]

/-- On all-NaN endpoints every interpolated sample is a NaN pair. -/
theorem interpolateGreatCircle_nan (n : ℕ) :
    interpolateGreatCircle none none none none n = List.replicate (n + 1) (none, none) := by
  simp only [interpolateGreatCircle, haversineDistance, toRadians, toDegrees,
    jsub_none_left, jsub_none_right, jmul_none_left, jmul_none_right, jadd_none_left,
    jadd_none_right, jsin_none, jcos_none, jsqrt_none, jdiv_none_left, jdiv_none_right,
    jatan2_none_left, jatan2_none_right]
  rw [List.map_const', List.length_range]

/-- Projection to 3D of a finite coordinate at a finite radius is finite. -/
theorem isFiniteVec_latLng_some (lat lng r : ℝ) :
    isFiniteVec (latLngToVector3 (some lat) (some lng) (some r)) = true := by
  simp [latLngToVector3, toRadians, isFiniteVec, isFiniteNum]

/-- Projection to 3D of a NaN latitude is non-finite in every component. -/
theorem isFiniteVec_latLng_nan (lng r : JSNum) :
    isFiniteVec (latLngToVector3 none lng r) = false := by
  simp [latLngToVector3, toRadians, isFiniteVec, isFiniteNum]

/-- Filtering `List.range (n+1)` to its first and last elements. -/
theorem range_filter_ends (n : ℕ) (hn : 0 < n) :
    (List.range (n + 1)).filter (fun i => i == 0 || i == n) = [0, n] := by
  rw [List.range_succ, List.filter_append]
  have h2 : List.filter (fun i => i == 0 || i == n) [n] = [n] := by simp
  have h1 : (List.range n).filter (fun i => i == 0 || i == n) = [0] := by
    have hc : ∀ i ∈ List.range n, (i == 0 || i == n) = (i == 0) := by
      intro i hi
      have hlt : i < n := List.mem_range.mp hi
      simp [Nat.ne_of_lt hlt]
    rw [List.filter_congr hc]
    cases n with
    | zero => omega
    | succ m =>
      rw [List.range_succ_eq_map]
      have hnil : List.filter (fun i => i == 0) (List.map Nat.succ (List.range m)) = [] := by
        rw [List.filter_eq_nil_iff]
        intro a ha
        obtain ⟨i, -, rfl⟩ := List.mem_map.mp ha
        simp
      simp [List.filter_cons, hnil]
  rw [h1, h2]
  rfl

/-- Filtering a mapped range whose predicate holds exactly at the two ends. -/
theorem filter_map_range_ends {α : Type} (F : ℕ → α) (q : α → Bool) (n : ℕ) (hn : 0 < n)
    (h0 : q (F 0) = true) (hn' : q (F n) = true)
    (hmid : ∀ i, 0 < i → i < n → q (F i) = false) :
    ((List.range (n + 1)).map F).filter q = [F 0, F n] := by
  rw [List.filter_map F (List.range (n + 1))]
  have hc : ∀ i ∈ List.range (n + 1), (q ∘ F) i = (i == 0 || i == n) := by
    intro i hi
    by_cases hi0 : i = 0
    · subst hi0
      simp [h0]
    · by_cases hin : i = n
      · subst hin
        simp [hn']
      · have hlt : i < n + 1 := List.mem_range.mp hi
        have hltn : i < n := by omega
        simp [Function.comp, hmid i (Nat.pos_of_ne_zero hi0) hltn, hi0, hin]
  rw [List.filter_congr hc, range_filter_ends n hn]
  rfl

/-- For coincident endpoints the surviving path points are exactly the two
(identical) endpoint dot positions: a valid zero-length degenerate path. -/
theorem validPositions_coincident (lat lng : ℝ) (n : ℕ) (hn : 0 < n) :
    validPositions (some lat) (some lng) (some lat) (some lng) n =
      [latLngToVector3 (some lat) (some lng) (some 100),
        latLngToVector3 (some lat) (some lng) (some 100)] := by
  simp only [validPositions, pingPositions, interpolateGreatCircle_coincident,
    getD_replicate_self]
  rw [filter_map_range_ends _ isFiniteVec n hn (by simp [isFiniteVec_latLng_some])
    (by simp [hn.ne', isFiniteVec_latLng_some])
    (fun i hi0 hin => by simp [hi0.ne', hin.ne, isFiniteVec_latLng_nan])]
  simp [hn.ne']

/-- With all-NaN event coordinates no path point survives the finite filter. -/
theorem validPositions_nan (n : ℕ) :
    validPositions none none none none n = [] := by
  simp only [validPositions, pingPositions, interpolateGreatCircle_nan,
    getD_replicate_self]
  refine List.filter_eq_nil_iff.mpr ?_
  intro v hv
  obtain ⟨i, -, rfl⟩ := List.mem_map.mp hv
  by_cases hi0 : i = 0
  · simp [hi0, isFiniteVec_latLng_nan]
  · by_cases hin : i = n
    · simp [hi0, hin, isFiniteVec_latLng_nan]
    · simp [hi0, hin, isFiniteVec_latLng_nan]

/-! ## Great-circle degenerate-endpoint claims -/

/-- C3 counterexample: at exactly coincident endpoints `a = b = (0,0)` the
code divides by `sin 0 = 0`: the middle sample of
`interpolateGreatCircle(0,0,0,0,2)` is a NaN pair, not a repeat of `a`, and
the returned sequence is not `n+1` repeats of `a`. -/
theorem interpolateGreatCircle_no_guard :
    (interpolateGreatCircle (some 0) (some 0) (some 0) (some 0) 2).getD 1
        ((some 0 : JSNum), (some 0 : JSNum)) = (none, none) ∧
      interpolateGreatCircle (some 0) (some 0) (some 0) (some 0) 2 ≠
        List.replicate 3 ((some 0 : JSNum), (some 0 : JSNum)) := by
  rw [interpolateGreatCircle_coincident 0 0 2]
  refine ⟨rfl, ?_⟩
  intro h
  simp [List.replicate] at h

/-- C3 amended: `interpolateGreatCircle` itself has no ε-guard — on coincident
endpoints every sample it returns is NaN — but the degenerate case still
resolves downstream: `PingEngine`'s finite filter reduces the path to exactly
the two (identical, finite) endpoint positions, a valid zero-length path of
length 2, so path generation does not crash and tube construction proceeds. -/
theorem coincident_path_resolves (lat lng : ℝ) (n : ℕ) (hn : 0 < n) :
    validPositions (some lat) (some lng) (some lat) (some lng) n =
      [latLngToVector3 (some lat) (some lng) (some 100),
        latLngToVector3 (some lat) (some lng) (some 100)] ∧
      isFiniteVec (latLngToVector3 (some lat) (some lng) (some 100)) = true ∧
      2 ≤ (validPositions (some lat) (some lng) (some lat) (some lng) n).length :=
  ⟨validPositions_coincident lat lng n hn, isFiniteVec_latLng_some lat lng 100,
    by rw [validPositions_coincident lat lng n hn]; norm_num⟩

/-- Witness for `coincident_path_resolves` at `(0,0)` with the engine's 100
sample points. -/
theorem coincident_path_resolves_witness :
    validPositions (some 0) (some 0) (some 0) (some 0) 100 =
      [latLngToVector3 (some 0) (some 0) (some 100),
        latLngToVector3 (some 0) (some 0) (some 100)] ∧
      isFiniteVec (latLngToVector3 (some 0) (some 0) (some 100)) = true ∧
      2 ≤ (validPositions (some 0) (some 0) (some 0) (some 0) 100).length :=
  coincident_path_resolves 0 0 100 (by norm_num)

/-- C10: ping path construction is total — every path point surviving the
filter is finite, and in the degenerate branches (fewer than two finite points,
or the Three.js tube constructor throwing) no entity is created, no cue is
scheduled, and the engine state is left unchanged (the id having been
released). -/
theorem pingPath_safe (s : EngineState) (p : PingEvent) (tubeOk : Bool) :
    (∀ v ∈ validPositions p.fromLat p.fromLng p.toLat p.toLng 100,
      isFiniteVec v = true) ∧
    ((validPositions p.fromLat p.fromLng p.toLat p.toLng 100).length < 2 →
      processPing s p tubeOk = s) ∧
    (tubeOk = false → processPing s p tubeOk = s) := by
  refine ⟨fun v hv => (List.mem_filter.mp hv).2, ?_, ?_⟩
  · intro hlen
    unfold processPing
    split_ifs <;> rfl
  · intro ht
    subst ht
    unfold processPing
    split_ifs <;> first | rfl | simp_all

/-- Witness for `pingPath_safe`: an event with NaN coordinates yields no valid
points and leaves the state unchanged, as does a tube-construction failure. -/
theorem pingPath_safe_witness :
    processPing ⟨∅, ∅, []⟩ ⟨"w", none, none, none, none⟩ true = ⟨∅, ∅, []⟩ ∧
      processPing ⟨∅, ∅, []⟩ ⟨"x", some 0, some 0, some 0, some 90⟩ false =
        ⟨∅, ∅, []⟩ :=
  ⟨(pingPath_safe ⟨∅, ∅, []⟩ ⟨"w", none, none, none, none⟩ true).2.1
      (by simp [validPositions_nan]),
    (pingPath_safe ⟨∅, ∅, []⟩ ⟨"x", some 0, some 0, some 0, some 90⟩ false).2.2 rfl⟩

/-- Witness for `pingBong_exactly_once`: a degenerate (coincident) ping is
created once, redelivered twice and faded; its cue count is exactly one. -/
theorem pingBong_exactly_once_witness :
    (([EngineOp.ping ⟨"a", some 0, some 0, some 0, some 0⟩ true,
        EngineOp.fadeStart "a",
        EngineOp.ping ⟨"a", some 0, some 0, some 0, some 0⟩ true].foldl engineStep
      (engineStep ⟨∅, ∅, []⟩
        (.ping ⟨"a", some 0, some 0, some 0, some 0⟩ true))).bongs.count "a" = 1 ∧
      liveArc "a"
        ([EngineOp.ping ⟨"a", some 0, some 0, some 0, some 0⟩ true,
          EngineOp.fadeStart "a",
          EngineOp.ping ⟨"a", some 0, some 0, some 0, some 0⟩ true].foldl engineStep
        (engineStep ⟨∅, ∅, []⟩
          (.ping ⟨"a", some 0, some 0, some 0, some 0⟩ true)))) :=
  pingBong_exactly_once ⟨∅, ∅, []⟩ ⟨"a", some 0, some 0, some 0, some 0⟩ true
    [EngineOp.ping ⟨"a", some 0, some 0, some 0, some 0⟩ true,
      EngineOp.fadeStart "a",
      EngineOp.ping ⟨"a", some 0, some 0, some 0, some 0⟩ true]
    (by simp [liveArc]) rfl
    (by
      show 2 ≤ (validPositions (some 0) (some 0) (some 0) (some 0) 100).length
      rw [validPositions_coincident 0 0 100 (by norm_num)]
      norm_num)
    rfl
    (by
      intro o ho
      simp only [List.mem_cons, List.mem_singleton, List.not_mem_nil] at ho
      rcases ho with rfl | rfl | rfl | h
      · simp
      · simp
      · simp
      · cases h)

end

end RaysEarth
